import Mathlib

/-!
Verification of the payload-normalization engine (`/api/point.js`) and the
session-state reducer (`/api/track.js`) of the INJ tracker service.

Modelling conventions (shallow embedding):
* JavaScript numbers reaching the code paths below are finite numerics; they
  are modelled as `Int`.  `toNum` maps every non-finite input to `0`, so raw
  numeric fields are represented directly as `Int` with `0` also standing for
  absent/invalid values (both behave identically through the `x || y` idiom,
  which treats `0` as falsy).
* Raw string fields are represented as `String`, with `""` standing for an
  absent value (both are falsy in JS and behave identically through `||`).
* `x || y` on strings/numbers is modelled by `jsOrS` / `jsOrI` / `jsOrOptI`.
* Arrays that may be absent or non-arrays are `Option (List _)`
  (`clampArray` performs the `Array.isArray` check, as in the source).
* `Array.prototype.sort` is stable per ES2019; it is modelled by the stable
  insertion sort `sortByTs` (the unique stable sort by ascending `ts`).
* JSON parsing of request bodies / stored documents is not re-implemented:
  handlers are parametrised by a parse function, with `none` standing for a
  parse failure (a `JSON.parse` / `res.json()` throw).
-/

set_option maxRecDepth 4000

/-! ## Scalar coercers (point.js lines 17-37, track.js falsy idioms) -/

/-- JS `a || b` on strings (`""` is the falsy string). -/
def jsOrS (a b : String) : String := if a = "" then b else a

/-- JS `a || b` on numbers (`0` is the falsy numeric). -/
def jsOrI (a b : Int) : Int := if a = 0 then b else a

/-- JS `a || b` where `a` is a number-or-null field (`null` and `0` falsy). -/
def jsOrOptI (a : Option Int) (b : Int) : Option Int :=
  match a with
  | none => some b
  | some x => if x = 0 then some b else some x

/-- `toNum` (point.js line 29): `Number(x)` if finite else `0`.  Non-finite
inputs are already represented as `0` (see module conventions). -/
def toNum (x : Int) : Int := x

/-- `toStr` (point.js line 34): stringify and truncate to `maxLen`. -/
def toStr (x : String) (maxLen : Nat) : String :=
  if x.length > maxLen then ⟨x.data.take maxLen⟩ else x

/-- `clampArray` (point.js line 23): non-arrays become `[]`; longer arrays
keep their last `maxN` elements (`arr.slice(arr.length - max)`). -/
def clampArray {α : Type} (arr : Option (List α)) (maxN : Nat) : List α :=
  match arr with
  | none => []
  | some l => if l.length ≤ maxN then l else l.drop (l.length - maxN)

/-- JS `arr.slice(-n)`.  Note the `-0` gotcha: for `n = 0` JS evaluates
`slice(0)`, i.e. the whole array, not the empty suffix. -/
def sliceLast {α : Type} (l : List α) (n : Nat) : List α :=
  if n = 0 then l else l.drop (l.length - n)

/-- `while (arr.length < n) arr.unshift(d)` — left-pad with default `d`. -/
def padLeft {α : Type} (l : List α) (n : Nat) (d : α) : List α :=
  List.replicate (n - l.length) d ++ l

/-- Whitespace test used by the `replace(/\s+/g, "_")` in the default event
id (ASCII whitespace; ample for the inputs considered here). -/
def isWsChar (c : Char) : Bool :=
  c = ' ' || c = '\t' || c = '\n' || c = '\r' || c = '\x0b' || c = '\x0c'

/-- Core of `replace(/\s+/g, "_")`: the flag records whether the previous
character was part of a whitespace run already replaced. -/
def collapseWsAux : Bool → List Char → List Char
  | _, [] => []
  | prevWs, c :: cs =>
    if isWsChar c then
      if prevWs then collapseWsAux true cs else '_' :: collapseWsAux true cs
    else c :: collapseWsAux false cs

/-- `s.replace(/\s+/g, "_")`. -/
def collapseWs (s : String) : String := ⟨collapseWsAux false s.data⟩

/-! ## Event normalizer (point.js lines 39-58 and 108-120) -/

/-- Canonical event shape produced by `sanitizeEvent`. -/
structure Event where
  id : String
  ts : Int
  kind : String
  title : String
  detail : String
  value : Int
  dir : String
  status : String
deriving DecidableEq

/-- Loose incoming event object (fields restricted per module conventions:
`""`/`0` stand for absent or non-coercible values). -/
structure RawEvent where
  id : String
  ts : Int
  kind : String
  type : String
  title : String
  detail : String
  desc : String
  value : Int
  dir : String
  status : String
deriving DecidableEq

/-- `sanitizeEvent` (point.js lines 39-58). -/
def sanitizeEvent (now : Int) (e : RawEvent) : Event :=
  let ts := jsOrI (toNum e.ts) now
  let kind := toStr (jsOrS e.kind (jsOrS e.type "event")) 32
  let title := toStr (jsOrS e.title kind) 64
  let detail := toStr (jsOrS e.detail (jsOrS e.desc "")) 220
  let value := toNum e.value
  let dir := toStr (jsOrS e.dir "") 8
  let status := toStr (jsOrS e.status "done") 12
  let id := toStr (jsOrS e.id (collapseWs (toString ts ++ ":" ++ kind ++ ":" ++ title))) 120
  ⟨id, ts, kind, title, detail, value, dir, status⟩

/-- One `map.set(ev.id, ev)` step on a JS `Map` represented as an ordered
association list: the first occurrence keeps its position, the value is
replaced; a fresh id is appended. -/
def upsert (ev : Event) : List Event → List Event
  | [] => [ev]
  | x :: xs => if x.id = ev.id then ev :: xs else x :: upsert ev xs

/-- `for (const ev of cleaned) map.set(ev.id, ev)` followed by
`Array.from(map.values())` (point.js lines 113-114, 117). -/
def dedupById (l : List Event) : List Event :=
  l.foldl (fun acc ev => upsert ev acc) []

/-- Stable insertion of `x` into a list sorted by ascending `ts` (`x` goes
before the first strictly later element, hence after all equal keys). -/
def insertByTs (x : Event) : List Event → List Event
  | [] => [x]
  | y :: ys => if x.ts ≤ y.ts then x :: y :: ys else y :: insertByTs x ys

/-- `.sort((a, b) => (a.ts || 0) - (b.ts || 0))` (point.js line 117):
the stable sort by ascending `ts` (ES2019 requires sort stability; the
`|| 0` is the identity on numeric `ts`). -/
def sortByTs : List Event → List Event
  | [] => []
  | x :: xs => insertByTs x (sortByTs xs)

/-! ## Series normalizer and payload assembler (point.js lines 60-124) -/

def MAX_BODY_BYTES : Nat := 220000
def MAX_POINTS : Nat := 2400
def MAX_EVENTS : Nat := 1200

structure SeriesStake where
  labels : List String
  data : List Int
  moves : List Int
  types : List String
deriving DecidableEq

structure SeriesWd where
  labels : List String
  values : List Int
  times : List Int
deriving DecidableEq

structure SeriesNw where
  times : List Int
  usd : List Int
  inj : List Int
deriving DecidableEq

structure Payload where
  v : Nat
  t : Int
  stake : SeriesStake
  wd : SeriesWd
  nw : SeriesNw
  events : List Event
deriving DecidableEq

structure RawStake where
  labels : Option (List String)
  data : Option (List Int)
  moves : Option (List Int)
  types : Option (List String)
deriving DecidableEq

structure RawWd where
  labels : Option (List String)
  values : Option (List Int)
  times : Option (List Int)
deriving DecidableEq

structure RawNw where
  times : Option (List Int)
  usd : Option (List Int)
  inj : Option (List Int)
deriving DecidableEq

structure RawPayload where
  stake : Option RawStake
  wd : Option RawWd
  nw : Option RawNw
  events : Option (List RawEvent)
deriving DecidableEq

/-- Stake block of `sanitizePayload` (point.js lines 71-83).  Note: `labels`
is truncated with `slice(-n)` but, unlike `moves` and `types`, never padded. -/
def sanStake (st : RawStake) : SeriesStake :=
  let labels0 := (clampArray st.labels MAX_POINTS).map (fun x => toStr x 48)
  let data := (clampArray st.data MAX_POINTS).map toNum
  let moves0 := (clampArray st.moves MAX_POINTS).map toNum
  let types0 := (clampArray st.types MAX_POINTS).map (fun x => toStr x 40)
  let n := data.length
  ⟨sliceLast labels0 n, data,
   padLeft (sliceLast moves0 n) n 0,
   padLeft (sliceLast types0 n) n "Stake update"⟩

/-- Withdrawal block of `sanitizePayload` (point.js lines 85-94). -/
def sanWd (w : RawWd) : SeriesWd :=
  let labels0 := (clampArray w.labels MAX_POINTS).map (fun x => toStr x 48)
  let values := (clampArray w.values MAX_POINTS).map toNum
  let times0 := (clampArray w.times MAX_POINTS).map toNum
  let n := values.length
  ⟨sliceLast labels0 n, values, padLeft (sliceLast times0 n) n 0⟩

/-- Net-worth block of `sanitizePayload` (point.js lines 96-106). -/
def sanNw (nwr : RawNw) : SeriesNw :=
  let times := (clampArray nwr.times MAX_POINTS).map toNum
  let usd0 := (clampArray nwr.usd MAX_POINTS).map toNum
  let inj0 := (clampArray nwr.inj MAX_POINTS).map toNum
  let n := times.length
  ⟨times, padLeft (sliceLast usd0 n) n 0, padLeft (sliceLast inj0 n) n 0⟩

/-- `sanitizePayload` (point.js lines 60-124); `now` is `Date.now()`. -/
def sanitizePayload (now : Int) (p : RawPayload) : Payload :=
  let stake := match p.stake with
    | none => (⟨[], [], [], []⟩ : SeriesStake)
    | some st => sanStake st
  let wd := match p.wd with
    | none => (⟨[], [], []⟩ : SeriesWd)
    | some w => sanWd w
  let nw := match p.nw with
    | none => (⟨[], [], []⟩ : SeriesNw)
    | some x => sanNw x
  let events := match p.events with
    | none => []
    | some evs => clampArray (some (sortByTs (dedupById (evs.map (sanitizeEvent now))))) MAX_EVENTS
  ⟨2, now, stake, wd, nw, events⟩

/-! ## Snapshot endpoint handler (point.js lines 126-229) -/

/-- `String(a || "").trim()` — ASCII-whitespace trim. -/
def jsTrim (s : String) : String :=
  ⟨((s.data.dropWhile isWsChar).reverse.dropWhile isWsChar).reverse⟩

/-- The regex `/^inj[a-z0-9]{20,80}$/i` (point.js line 19). -/
def validInjAddr (s : String) : Bool :=
  match s.data with
  | c1 :: c2 :: c3 :: rest =>
    (c1 = 'i' || c1 = 'I') && (c2 = 'n' || c2 = 'N') && (c3 = 'j' || c3 = 'J') &&
      rest.all (fun c => c.isAlpha || c.isDigit) &&
      decide (20 ≤ rest.length) && decide (rest.length ≤ 80)
  | _ => false

/-- `normalizeAddr` (point.js lines 17-21). -/
def normalizeAddr (a : String) : String :=
  let s := jsTrim a
  if validInjAddr s then s else ""

/-- Streaming loop of `readRawBody` (point.js lines 149-165): accumulate the
data chunks, and once the accumulated length exceeds `MAX_BODY_BYTES` set the
too-large flag (never reset) and clear the buffer. -/
def readRawBodyGo : String → Bool → List String → Option String
  | raw, tooLarge, [] => if tooLarge then none else some raw
  | raw, tooLarge, c :: cs =>
    let r := raw ++ c
    if r.length > MAX_BODY_BYTES then readRawBodyGo "" true cs
    else readRawBodyGo r tooLarge cs

/-- `readRawBody` (point.js lines 138-166).  `preBody` models a platform
pre-parsed `req.body` (restricted here to the string case): when present it
is returned as-is, with no size check. -/
def readRawBody (preBody : Option String) (chunks : List String) : Option String :=
  match preBody with
  | some b => some b
  | none => readRawBodyGo "" false chunks

inductive PointRes where
  | r204
  | r400 (msg : String)
  | r405
  | r413
  | r500
  | getOk (data : Option Payload)
  | postOk (t : Int)
deriving DecidableEq

/-- Snapshot endpoint `handler` (point.js lines 168-229).  `parseDoc` models
`JSON.parse` on the stored text (`none` = throw), `parseBody` models it on the
request body, `storedTxt` is the result of `readBlobTextByPathname`. -/
def pointHandler (parseDoc : String → Option Payload)
    (parseBody : String → Option RawPayload) (now : Int)
    (method addr : String) (storedTxt : Option String)
    (preBody : Option String) (chunks : List String) : PointRes :=
  if method = "OPTIONS" then .r204
  else if normalizeAddr addr = "" then .r400 "Invalid address"
  else if method = "GET" then
    match storedTxt with
    | none => .getOk none
    | some txt => if txt = "" then .getOk none else .getOk (parseDoc txt)
  else if method = "POST" then
    match readRawBody preBody chunks with
    | none => .r413
    | some raw =>
      if raw = "" then .r400 "Empty body"
      else
        match parseBody raw with
        | none => .r400 "Invalid JSON"
        | some p => .postOk (sanitizePayload now p).t
  else .r405

/-! ## Tracking endpoint (track.js) -/

def MAX_SESSIONS : Nat := 5000

/-- Session record (track.js lines 94-103; `endReason` is only added by the
`end` branch, hence optional). `deviceInfo` objects are modelled as ordered
key/value lists with `[]` for `{}`. -/
structure Session where
  sessionId : String
  deviceId : String
  startTs : Int
  lastTs : Int
  endTs : Option Int
  beats : Int
  page : String
  deviceInfo : List (String × String)
  endReason : Option String
deriving DecidableEq

/-- POST body of the tracking endpoint after the handler's `String`/`Number`
coercions (`""`/`0` stand for falsy raw values, per module conventions). -/
structure TrackPayload where
  type : String
  sessionId : String
  deviceId : String
  ts : Int
  page : String
  deviceInfo : Option (List (String × String))
  reason : String
  name : String
deriving DecidableEq

/-- Fresh record pushed by the `start` branch (track.js lines 94-104). -/
def startRecord (pl : TrackPayload) : Session :=
  ⟨pl.sessionId, pl.deviceId, pl.ts, pl.ts, none, 0, pl.page, pl.deviceInfo.getD [], none⟩

/-- `s.startTs = s.startTs || ts; s.lastTs = ts` (track.js lines 107-108). -/
def startUpd (ts : Int) (s : Session) : Session :=
  { s with startTs := jsOrI s.startTs ts, lastTs := ts }

/-- Minimal record synthesized by a `beat` with no prior record
(track.js line 113). -/
def minimalRecord (pl : TrackPayload) : Session :=
  ⟨pl.sessionId, pl.deviceId, pl.ts, pl.ts, none, 0, "", [], none⟩

/-- `s.lastTs = Math.max(s.lastTs || 0, ts); s.beats = (s.beats || 0) + 1`
(track.js lines 116-117). -/
def beatUpd (ts : Int) (s : Session) : Session :=
  { s with lastTs := max (jsOrI s.lastTs 0) ts, beats := jsOrI s.beats 0 + 1 }

/-- Record synthesized by an `end` with no prior record (track.js line 120). -/
def endSeedRecord (pl : TrackPayload) : Session :=
  ⟨pl.sessionId, pl.deviceId, pl.ts, pl.ts, some pl.ts, 0, "", [], none⟩

/-- `s.lastTs = Math.max(s.lastTs || 0, ts); s.endTs = s.endTs || ts;
s.endReason = String(payload.reason || "end")` (track.js lines 123-125). -/
def endUpd (ts : Int) (reason : String) (s : Session) : Session :=
  { s with lastTs := max (jsOrI s.lastTs 0) ts,
           endTs := jsOrOptI s.endTs ts,
           endReason := some (jsOrS reason "end") }

/-- Predicate of `sessions.find((x) => x.sessionId === sessionId)`. -/
def sessKey (sid : String) : Session → Bool := fun x => x.sessionId == sid

/-- In-place mutation of the first matching array element. -/
def updateFirst {α : Type} (p : α → Bool) (f : α → α) : List α → List α
  | [] => []
  | x :: xs => if p x then f x :: xs else x :: updateFirst p f xs

/-- Session reducer (track.js lines 90-128): fold one start/beat/end event
into the session collection; `none` models the "Unknown type" 400 rejection.
The JS mutates the found (or freshly pushed) record in place; this is the
corresponding pure update. -/
def reduceSession (pl : TrackPayload) (sessions : List Session) : Option (List Session) :=
  if pl.type = "start" then
    some (match sessions.find? (sessKey pl.sessionId) with
      | none => sessions ++ [startRecord pl]
      | some _ => updateFirst (sessKey pl.sessionId) (startUpd pl.ts) sessions)
  else if pl.type = "beat" then
    some (match sessions.find? (sessKey pl.sessionId) with
      | none => sessions ++ [beatUpd pl.ts (minimalRecord pl)]
      | some _ => updateFirst (sessKey pl.sessionId) (beatUpd pl.ts) sessions)
  else if pl.type = "end" then
    some (match sessions.find? (sessKey pl.sessionId) with
      | none => sessions ++ [endUpd pl.ts pl.reason (endSeedRecord pl)]
      | some _ => updateFirst (sessKey pl.sessionId) (endUpd pl.ts pl.reason) sessions)
  else none

/-- Cap of the session collection (track.js lines 131-133). -/
def capSessions (l : List Session) : List Session :=
  if l.length > MAX_SESSIONS then l.drop (l.length - MAX_SESSIONS) else l

/-- Outcome of one read of a stored blob: never written, fetch failed, or
fetched text content. -/
inductive BlobRead where
  | absent
  | fetchFail
  | content (txt : String)

/-- `readJsonOr` (track.js lines 17-24): absent blob or failed fetch yield the
default, but `r.json()` on unparseable content throws (`Except.error`). -/
def readJsonOr {J : Type} (parse : String → Option J) (dflt : J) (b : BlobRead) :
    Except String J :=
  match b with
  | .absent => .ok dflt
  | .fetchFail => .ok dflt
  | .content s =>
    match parse s with
    | some j => .ok j
    | none => .error "Unexpected token"

inductive TrackRes where
  | getOk (sessions : List Session) (names : List (String × String)) (ts : Int)
  | postOk
  | r400 (msg : String)
  | r405
  | r413
  | r500 (msg : String)
deriving DecidableEq

/-- Tracking endpoint `handler` (track.js lines 42-140).  Parsers model
`res.json()` / `JSON.parse` (`none` = throw, surfaced by the outer catch as a
500); blob writes always succeed and are abstracted away. -/
def trackHandler (parseS : String → Option (List Session))
    (parseN : String → Option (List (String × String)))
    (parseP : String → Option TrackPayload) (now : Int)
    (method : String) (sessBlob namesBlob : BlobRead)
    (chunks : List String) : TrackRes :=
  let m := if method = "" then "GET" else method
  if m = "GET" then
    match readJsonOr parseS [] sessBlob with
    | .error e => .r500 e
    | .ok sessions =>
      match readJsonOr parseN [] namesBlob with
      | .error e => .r500 e
      | .ok names => .getOk sessions names now
  else if ¬ (m = "POST") then .r405
  else
    let body := String.join chunks
    if body = "" then .r400 "Empty body"
    else if body.length > MAX_BODY_BYTES then .r413
    else
      match parseP body with
      | none => .r500 "Unexpected token"
      | some payload =>
        if payload.type = "name" then
          match readJsonOr parseN [] namesBlob with
          | .error e => .r500 e
          | .ok _ =>
            let n := toStr (jsTrim (jsOrS payload.name "")) 32
            if payload.deviceId = "" then .r400 "Missing deviceId"
            else if n = "" then .r400 "Empty name"
            else .postOk
        else
          match readJsonOr parseS [] sessBlob with
          | .error e => .r500 e
          | .ok sessions =>
            let ts := jsOrI payload.ts now
            if payload.sessionId = "" ∨ payload.deviceId = "" then
              .r400 "Missing sessionId/deviceId"
            else
              match reduceSession { payload with ts := ts } sessions with
              | none => .r400 "Unknown type"
              | some out =>
                let _ := capSessions out
                .postOk

/-! ## Helper lemmas: lengths of clamped / sliced / padded arrays -/

lemma length_clampArray_le {α : Type} (o : Option (List α)) (m : Nat) :
    (clampArray o m).length ≤ m ∨ (clampArray o m).length ≤ (o.getD []).length := by
  cases o with
  | none => left; simp [clampArray]
  | some l =>
    simp only [clampArray, Option.getD_some]
    split
    · right; exact le_rfl
    · left; simp only [List.length_drop]; omega

lemma length_clampArray_le_max {α : Type} (o : Option (List α)) (m : Nat)
    (h : (o.getD []).length ≤ m) : (clampArray o m).length ≤ m := by
  rcases length_clampArray_le o m with h1 | h1
  · exact h1
  · exact le_trans h1 h

lemma length_sliceLast_le_self {α : Type} (l : List α) (n : Nat) :
    (sliceLast l n).length ≤ l.length := by
  simp only [sliceLast]
  split
  · exact le_rfl
  · simp only [List.length_drop]; omega

lemma length_sliceLast_le {α : Type} (l : List α) (n : Nat) (h : n ≠ 0) :
    (sliceLast l n).length ≤ n := by
  simp only [sliceLast, if_neg h, List.length_drop]
  omega

lemma length_padLeft {α : Type} (l : List α) (n : Nat) (d : α) :
    (padLeft l n d).length = (n - l.length) + l.length := by
  simp [padLeft]

lemma length_pad_slice {α : Type} (l : List α) (n : Nat) (d : α) (hn : n ≠ 0) :
    (padLeft (sliceLast l n) n d).length = n := by
  have h1 := length_sliceLast_le l n hn
  rw [length_padLeft]
  omega

lemma length_pad_slice_le {α : Type} (l : List α) (n m : Nat) (d : α)
    (hl : l.length ≤ m) (hn : n ≤ m) : (padLeft (sliceLast l n) n d).length ≤ m := by
  have h1 := length_sliceLast_le_self l n
  rw [length_padLeft]
  omega

/-! ## Helper lemmas: `find?` and `updateFirst` -/

lemma find?_updateFirst {α : Type} (p : α → Bool) (f : α → α)
    (hf : ∀ a, p a = true → p (f a) = true) :
    ∀ l : List α, (updateFirst p f l).find? p = (l.find? p).map f := by
  intro l
  induction l with
  | nil => rfl
  | cons x xs ih =>
    by_cases hx : p x = true
    · rw [updateFirst, if_pos hx, List.find?_cons_of_pos _ (hf x hx),
        List.find?_cons_of_pos _ hx, Option.map_some']
    · have hx' : p x = false := by simpa using hx
      rw [updateFirst, if_neg (by simp [hx']), List.find?_cons_of_neg _ (by simp [hx']),
        List.find?_cons_of_neg _ (by simp [hx']), ih]

lemma find?_append_singleton {α : Type} (p : α → Bool) (l : List α) (x : α)
    (h : l.find? p = none) (hx : p x = true) : (l ++ [x]).find? p = some x := by
  induction l with
  | nil => simp [List.find?, hx]
  | cons y ys ih =>
    have hy : p y = false := by
      cases hpy : p y
      · rfl
      · rw [List.find?_cons_of_pos _ hpy] at h; cases h
    rw [List.find?_cons_of_neg _ (by simp [hy])] at h
    rw [List.cons_append, List.find?_cons_of_neg _ (by simp [hy])]
    exact ih h

/-! ## Helper lemmas: the dedup-by-id map -/

lemma upsert_of_not_mem (e : Event) (l : List Event) (h : e.id ∉ l.map Event.id) :
    upsert e l = l ++ [e] := by
  induction l with
  | nil => rfl
  | cons x xs ih =>
    simp only [List.map_cons, List.mem_cons, not_or] at h
    obtain ⟨h1, h2⟩ := h
    rw [upsert, if_neg (fun hc => h1 hc.symm), ih h2, List.cons_append]

lemma mem_ids_upsert {x : String} (e : Event) :
    ∀ l : List Event, x ∈ (upsert e l).map Event.id → x = e.id ∨ x ∈ l.map Event.id := by
  intro l
  induction l with
  | nil => intro h; simpa [upsert] using h
  | cons y ys ih =>
    intro h
    by_cases hc : y.id = e.id
    · rw [upsert, if_pos hc] at h
      rcases List.mem_cons.mp h with h1 | h2
      · exact Or.inl h1
      · exact Or.inr (List.mem_cons_of_mem _ h2)
    · rw [upsert, if_neg hc] at h
      rcases List.mem_cons.mp h with h1 | h2
      · exact Or.inr (by rw [h1]; exact List.mem_cons_self _ _)
      · rcases ih h2 with h3 | h3
        · exact Or.inl h3
        · exact Or.inr (List.mem_cons_of_mem _ h3)

lemma ids_nodup_upsert (e : Event) :
    ∀ l : List Event, (l.map Event.id).Nodup → ((upsert e l).map Event.id).Nodup := by
  intro l
  induction l with
  | nil => intro _; simp [upsert]
  | cons x xs ih =>
    intro h
    simp only [List.map_cons, List.nodup_cons] at h
    obtain ⟨hx, hxs⟩ := h
    by_cases hc : x.id = e.id
    · rw [upsert, if_pos hc]
      simp only [List.map_cons, List.nodup_cons]
      exact ⟨by rw [← hc]; exact hx, hxs⟩
    · rw [upsert, if_neg hc]
      simp only [List.map_cons, List.nodup_cons]
      refine ⟨?_, ih hxs⟩
      intro hmem
      rcases mem_ids_upsert e xs hmem with h1 | h1
      · exact hc h1
      · exact hx h1

lemma ids_nodup_dedup_go :
    ∀ (l acc : List Event), (acc.map Event.id).Nodup →
      ((l.foldl (fun acc ev => upsert ev acc) acc).map Event.id).Nodup := by
  intro l
  induction l with
  | nil => intro acc h; exact h
  | cons x xs ih => intro acc h; exact ih _ (ids_nodup_upsert x acc h)

lemma ids_nodup_dedup (l : List Event) : ((dedupById l).map Event.id).Nodup :=
  ids_nodup_dedup_go l [] (by simp)

lemma dedup_go_append :
    ∀ (l acc : List Event), ((acc ++ l).map Event.id).Nodup →
      l.foldl (fun acc ev => upsert ev acc) acc = acc ++ l := by
  intro l
  induction l with
  | nil => intro acc _; simp
  | cons x xs ih =>
    intro acc h
    have hx : x.id ∉ acc.map Event.id := by
      intro hc
      rw [List.map_append] at h
      rcases (List.nodup_append.mp h) with ⟨_, _, hdisj⟩
      exact hdisj hc (by simp)
    rw [List.foldl_cons, upsert_of_not_mem x acc hx]
    have h2 : (((acc ++ [x]) ++ xs).map Event.id).Nodup := by
      have he : (acc ++ [x]) ++ xs = acc ++ (x :: xs) := by simp
      rw [he]; exact h
    have h3 := ih (acc ++ [x]) h2
    simpa using h3

lemma dedupById_eq_self (l : List Event) (h : (l.map Event.id).Nodup) :
    dedupById l = l := by
  have := dedup_go_append l [] (by simpa using h)
  simpa [dedupById] using this

lemma dedupById_append_singleton (l : List Event) (e : Event) :
    dedupById (l ++ [e]) = upsert e (dedupById l) := by
  simp [dedupById, List.foldl_append]

lemma mem_upsert_cases {ev e : Event} :
    ∀ {l : List Event}, (l.map Event.id).Nodup → ev ∈ upsert e l →
      ev = e ∨ (ev ∈ l ∧ ev.id ≠ e.id) := by
  intro l
  induction l with
  | nil => intro _ h; left; simpa [upsert] using h
  | cons x xs ih =>
    intro hnd h
    simp only [List.map_cons, List.nodup_cons] at hnd
    obtain ⟨hx, hxs⟩ := hnd
    by_cases hc : x.id = e.id
    · rw [upsert, if_pos hc] at h
      rcases List.mem_cons.mp h with h1 | h2
      · exact Or.inl h1
      · right
        refine ⟨List.mem_cons_of_mem _ h2, fun hid => ?_⟩
        exact hx (by rw [hc, ← hid]; exact List.mem_map_of_mem _ h2)
    · rw [upsert, if_neg hc] at h
      rcases List.mem_cons.mp h with h1 | h2
      · right; exact ⟨by rw [h1]; exact List.mem_cons_self _ _, by rw [h1]; exact hc⟩
      · rcases ih hxs h2 with h3 | ⟨h4, h5⟩
        · exact Or.inl h3
        · right; exact ⟨List.mem_cons_of_mem _ h4, h5⟩

lemma dedup_find_last :
    ∀ (l : List Event) {ev : Event}, ev ∈ dedupById l →
      l.reverse.find? (fun e => e.id == ev.id) = some ev := by
  intro l
  induction l using List.reverseRecOn with
  | nil => intro ev h; simp [dedupById] at h
  | append_singleton l e ih =>
    intro ev h
    rw [dedupById_append_singleton] at h
    rcases mem_upsert_cases (ids_nodup_dedup l) h with h1 | ⟨h2, h3⟩
    · subst h1
      rw [List.reverse_append, List.reverse_singleton, List.singleton_append,
        List.find?_cons_of_pos _ (by simp)]
    · rw [List.reverse_append, List.reverse_singleton, List.singleton_append,
        List.find?_cons_of_neg _ (by simp [h3.symm]), ih h2]

/-! ## Helper lemmas: the stable sort by ascending ts -/

/-- The sortedness relation of the event sort: ascending `ts`. -/
def tsLE (a b : Event) : Prop := a.ts ≤ b.ts

lemma mem_insertByTs {z x : Event} :
    ∀ {l : List Event}, z ∈ insertByTs x l → z = x ∨ z ∈ l := by
  intro l
  induction l with
  | nil => intro h; left; simpa [insertByTs] using h
  | cons y ys ih =>
    intro h
    rw [insertByTs] at h
    split at h
    · rcases List.mem_cons.mp h with h1 | h1
      · exact Or.inl h1
      · exact Or.inr h1
    · rcases List.mem_cons.mp h with h1 | h1
      · exact Or.inr (by rw [h1]; exact List.mem_cons_self _ _)
      · rcases ih h1 with h2 | h2
        · exact Or.inl h2
        · exact Or.inr (List.mem_cons_of_mem _ h2)

lemma perm_insertByTs (x : Event) :
    ∀ l : List Event, List.Perm (insertByTs x l) (x :: l) := by
  intro l
  induction l with
  | nil => simp [insertByTs]
  | cons y ys ih =>
    rw [insertByTs]
    split
    · exact List.Perm.refl _
    · exact List.Perm.trans (ih.cons y) (List.Perm.swap x y ys)

lemma perm_sortByTs : ∀ l : List Event, List.Perm (sortByTs l) l := by
  intro l
  induction l with
  | nil => simp [sortByTs]
  | cons x xs ih =>
    rw [sortByTs]
    exact List.Perm.trans (perm_insertByTs x (sortByTs xs)) (ih.cons x)

lemma pairwise_insertByTs {x : Event} :
    ∀ {l : List Event}, l.Pairwise tsLE → (insertByTs x l).Pairwise tsLE := by
  intro l
  induction l with
  | nil => intro _; simp [insertByTs, tsLE]
  | cons y ys ih =>
    intro h
    rcases List.pairwise_cons.mp h with ⟨hy, hys⟩
    rw [insertByTs]
    split
    · rename_i hle
      refine List.pairwise_cons.mpr ⟨?_, h⟩
      intro z hz
      rcases List.mem_cons.mp hz with h1 | h1
      · rw [h1]; exact hle
      · exact le_trans hle (hy z h1)
    · rename_i hgt
      refine List.pairwise_cons.mpr ⟨?_, ih hys⟩
      intro z hz
      rcases mem_insertByTs hz with h1 | h1
      · rw [h1]; exact le_of_not_le hgt
      · exact hy z h1

lemma pairwise_sortByTs : ∀ l : List Event, (sortByTs l).Pairwise tsLE := by
  intro l
  induction l with
  | nil => simp [sortByTs]
  | cons x xs ih => rw [sortByTs]; exact pairwise_insertByTs ih

lemma sortByTs_eq_of_sorted : ∀ {l : List Event}, l.Pairwise tsLE → sortByTs l = l := by
  intro l
  induction l with
  | nil => intro _; rfl
  | cons x xs ih =>
    intro h
    rcases List.pairwise_cons.mp h with ⟨hx, hxs⟩
    rw [sortByTs, ih hxs]
    cases xs with
    | nil => rfl
    | cons y ys =>
      rw [insertByTs, if_pos (show x.ts ≤ y.ts from hx y (List.mem_cons_self _ _))]

/-! ## Small algebraic facts about the coercers -/

lemma jsOrS_empty (b : String) : jsOrS "" b = b := by rw [jsOrS, if_pos rfl]

lemma jsOrS_of_ne (a b : String) (h : a ≠ "") : jsOrS a b = a := by rw [jsOrS, if_neg h]

lemma jsOrI_of_ne (a b : Int) (h : a ≠ 0) : jsOrI a b = a := by rw [jsOrI, if_neg h]

lemma max_jsOrI_zero (a : Int) : max (jsOrI a 0) a = a := by
  rw [jsOrI]
  split
  · rename_i h; rw [h]; rfl
  · exact max_self a

lemma jsOrOptI_self (t : Int) : jsOrOptI (some t) t = some t := by
  show (if t = 0 then some t else some t) = some t
  split <;> rfl

lemma toStr_of_le (s : String) (m : Nat) (h : ¬ s.length > m) : toStr s m = s := by
  rw [toStr, if_neg h]

lemma toStr_empty (m : Nat) : toStr "" m = "" := by
  rw [toStr, if_neg]
  intro h
  have h0 : "".length = 0 := rfl
  omega

lemma toStr_event32 : toStr "event" 32 = "event" := rfl

lemma toStr_event64 : toStr "event" 64 = "event" := rfl

lemma toStr_done12 : toStr "done" 12 = "done" := rfl

lemma length_clampArray_le' {α : Type} (o : Option (List α)) (m : Nat) :
    (clampArray o m).length ≤ m := by
  cases o with
  | none => simp [clampArray]
  | some l =>
    simp only [clampArray]
    split
    · assumption
    · simp only [List.length_drop]; omega

/-! ## Per-series length facts for `sanitizePayload` -/

lemma sanStake_spec (st : RawStake) :
    ((sanStake st).labels.length ≤ MAX_POINTS ∧
     (sanStake st).data.length ≤ MAX_POINTS ∧
     (sanStake st).moves.length ≤ MAX_POINTS ∧
     (sanStake st).types.length ≤ MAX_POINTS) ∧
    ((sanStake st).data ≠ [] →
      (sanStake st).moves.length = (sanStake st).data.length ∧
      (sanStake st).types.length = (sanStake st).data.length ∧
      (sanStake st).labels.length ≤ (sanStake st).data.length) := by
  have hdata : (sanStake st).data = (clampArray st.data MAX_POINTS).map toNum := rfl
  have hlabels : (sanStake st).labels
      = sliceLast ((clampArray st.labels MAX_POINTS).map (fun x => toStr x 48))
          (sanStake st).data.length := rfl
  have hmoves : (sanStake st).moves
      = padLeft (sliceLast ((clampArray st.moves MAX_POINTS).map toNum)
          (sanStake st).data.length) (sanStake st).data.length 0 := rfl
  have htypes : (sanStake st).types
      = padLeft (sliceLast ((clampArray st.types MAX_POINTS).map (fun x => toStr x 40))
          (sanStake st).data.length) (sanStake st).data.length "Stake update" := rfl
  have hdlen : (sanStake st).data.length ≤ MAX_POINTS := by
    rw [hdata, List.length_map]; exact length_clampArray_le' _ _
  constructor
  · refine ⟨?_, hdlen, ?_, ?_⟩
    · rw [hlabels]
      exact le_trans (length_sliceLast_le_self _ _)
        (by rw [List.length_map]; exact length_clampArray_le' _ _)
    · rw [hmoves]
      exact length_pad_slice_le _ _ _ _
        (by rw [List.length_map]; exact length_clampArray_le' _ _) hdlen
    · rw [htypes]
      exact length_pad_slice_le _ _ _ _
        (by rw [List.length_map]; exact length_clampArray_le' _ _) hdlen
  · intro hne
    have hn0 : (sanStake st).data.length ≠ 0 := by
      simpa [List.length_eq_zero] using hne
    refine ⟨?_, ?_, ?_⟩
    · rw [hmoves]; exact length_pad_slice _ _ _ hn0
    · rw [htypes]; exact length_pad_slice _ _ _ hn0
    · rw [hlabels]; exact length_sliceLast_le _ _ hn0

lemma sanWd_spec (w : RawWd) :
    ((sanWd w).labels.length ≤ MAX_POINTS ∧
     (sanWd w).values.length ≤ MAX_POINTS ∧
     (sanWd w).times.length ≤ MAX_POINTS) ∧
    ((sanWd w).values ≠ [] →
      (sanWd w).times.length = (sanWd w).values.length ∧
      (sanWd w).labels.length ≤ (sanWd w).values.length) := by
  have hvalues : (sanWd w).values = (clampArray w.values MAX_POINTS).map toNum := rfl
  have hlabels : (sanWd w).labels
      = sliceLast ((clampArray w.labels MAX_POINTS).map (fun x => toStr x 48))
          (sanWd w).values.length := rfl
  have htimes : (sanWd w).times
      = padLeft (sliceLast ((clampArray w.times MAX_POINTS).map toNum)
          (sanWd w).values.length) (sanWd w).values.length 0 := rfl
  have hvlen : (sanWd w).values.length ≤ MAX_POINTS := by
    rw [hvalues, List.length_map]; exact length_clampArray_le' _ _
  constructor
  · refine ⟨?_, hvlen, ?_⟩
    · rw [hlabels]
      exact le_trans (length_sliceLast_le_self _ _)
        (by rw [List.length_map]; exact length_clampArray_le' _ _)
    · rw [htimes]
      exact length_pad_slice_le _ _ _ _
        (by rw [List.length_map]; exact length_clampArray_le' _ _) hvlen
  · intro hne
    have hn0 : (sanWd w).values.length ≠ 0 := by
      simpa [List.length_eq_zero] using hne
    refine ⟨?_, ?_⟩
    · rw [htimes]; exact length_pad_slice _ _ _ hn0
    · rw [hlabels]; exact length_sliceLast_le _ _ hn0

lemma sanNw_spec (x : RawNw) :
    ((sanNw x).times.length ≤ MAX_POINTS ∧
     (sanNw x).usd.length ≤ MAX_POINTS ∧
     (sanNw x).inj.length ≤ MAX_POINTS) ∧
    ((sanNw x).times ≠ [] →
      (sanNw x).usd.length = (sanNw x).times.length ∧
      (sanNw x).inj.length = (sanNw x).times.length) := by
  have htimes : (sanNw x).times = (clampArray x.times MAX_POINTS).map toNum := rfl
  have husd : (sanNw x).usd
      = padLeft (sliceLast ((clampArray x.usd MAX_POINTS).map toNum)
          (sanNw x).times.length) (sanNw x).times.length 0 := rfl
  have hinj : (sanNw x).inj
      = padLeft (sliceLast ((clampArray x.inj MAX_POINTS).map toNum)
          (sanNw x).times.length) (sanNw x).times.length 0 := rfl
  have htlen : (sanNw x).times.length ≤ MAX_POINTS := by
    rw [htimes, List.length_map]; exact length_clampArray_le' _ _
  constructor
  · refine ⟨htlen, ?_, ?_⟩
    · rw [husd]
      exact length_pad_slice_le _ _ _ _
        (by rw [List.length_map]; exact length_clampArray_le' _ _) htlen
    · rw [hinj]
      exact length_pad_slice_le _ _ _ _
        (by rw [List.length_map]; exact length_clampArray_le' _ _) htlen
  · intro hne
    have hn0 : (sanNw x).times.length ≠ 0 := by
      simpa [List.length_eq_zero] using hne
    exact ⟨by rw [husd]; exact length_pad_slice _ _ _ hn0,
           by rw [hinj]; exact length_pad_slice _ _ _ hn0⟩

/-! ## A family of events with pairwise-distinct ids and ascending timestamps

Used to exercise the event pipeline beyond the `MAX_EVENTS` cap. -/

/-- A 40-character alphabet with no repeats (and no `'z'`). -/
def alpha : List Char :=
  ['a', '0', 'b', '1', 'c', '2', 'd', '3', 'e', '4', 'f', '5', 'g', '6', 'h',
   '7', 'i', '8', 'j', '9', 'k', 'A', 'l', 'B', 'm', 'C', 'n', 'D', 'o', 'E',
   'p', 'q', 'r', 's', 't', 'u', 'v', 'w', 'x', 'y']

lemma alpha_nodup : alpha.Nodup := by decide

/-- Two-character identifier, injective below `40 * 40 = 1600`. -/
def encId (i : Nat) : String :=
  ⟨[alpha.get ⟨i / 40 % 40, by
      have h : i / 40 % 40 < 40 := Nat.mod_lt _ (by decide)
      simpa [alpha] using h⟩,
    alpha.get ⟨i % 40, by
      have h : i % 40 < 40 := Nat.mod_lt _ (by decide)
      simpa [alpha] using h⟩]⟩

lemma encId_length (i : Nat) : (encId i).length = 2 := rfl

lemma encId_ne_empty (i : Nat) : encId i ≠ "" := by
  intro h
  have h2 := congrArg String.length h
  rw [encId_length] at h2
  exact absurd h2 (by decide)

lemma encId_ne_zzz (i : Nat) : encId i ≠ "zzz" := by
  intro h
  have h2 := congrArg String.length h
  rw [encId_length] at h2
  exact absurd h2 (by decide)

lemma encId_inj {i j : Nat} (hi : i < 1600) (hj : j < 1600) (h : encId i = encId j) :
    i = j := by
  have hd := congrArg String.data h
  simp only [encId] at hd
  rw [List.cons.injEq, List.cons.injEq] at hd
  obtain ⟨hA, hB, -⟩ := hd
  have hinj := List.nodup_iff_injective_get.mp alpha_nodup
  have vA : i / 40 % 40 = j / 40 % 40 := congrArg Fin.val (hinj hA)
  have vB : i % 40 = j % 40 := congrArg Fin.val (hinj hB)
  omega

/-- Raw event number `i` of the bulk family: explicit id, timestamp `i + 2`. -/
def mkRaw (i : Nat) : RawEvent := ⟨encId i, (i : Int) + 2, "", "", "", "", "", 0, "", ""⟩

/-- Sanitized form of `mkRaw i`. -/
def mkClean (i : Nat) : Event := ⟨encId i, (i : Int) + 2, "event", "event", "", 0, "", "done"⟩

lemma toStr_encId (i : Nat) : toStr (encId i) 120 = encId i := by
  rw [toStr, if_neg]
  intro h
  rw [encId_length] at h
  omega

lemma sanitizeEvent_mkRaw (now : Int) (i : Nat) :
    sanitizeEvent now (mkRaw i) = mkClean i := by
  have h0 : (i : Int) + 2 ≠ 0 := by omega
  simp only [sanitizeEvent, mkRaw, mkClean, toNum, jsOrS_empty,
    jsOrS_of_ne _ _ (encId_ne_empty i), jsOrI_of_ne _ _ h0,
    toStr_event32, toStr_event64, toStr_empty, toStr_done12, toStr_encId]

/-- The id submitted twice in the oversize scenario (3 characters, so it can
collide with no `encId`). -/
def dupRaw1 : RawEvent := ⟨"zzz", 1, "", "", "", "", "", 5, "", ""⟩

def dupRaw2 : RawEvent := ⟨"zzz", 1, "", "", "", "", "", 7, "", ""⟩

def dupClean2 : Event := ⟨"zzz", 1, "event", "event", "", 7, "", "done"⟩

/-- 1201 distinct ids: `"zzz"` (submitted twice) plus 1200 bulk events. -/
def c7input : List RawEvent := dupRaw1 :: ((List.range 1200).map mkRaw ++ [dupRaw2])

def c7payload : RawPayload := ⟨none, none, none, some c7input⟩

def c7mids : List Event := (List.range 1200).map mkClean

lemma c7_cleaned :
    c7input.map (sanitizeEvent 0) = sanitizeEvent 0 dupRaw1 :: (c7mids ++ [dupClean2]) := by
  have hmid : ((List.range 1200).map mkRaw).map (sanitizeEvent 0) = c7mids := by
    rw [List.map_map, c7mids]
    exact List.map_congr_left (fun i _ => sanitizeEvent_mkRaw 0 i)
  have hdup2 : sanitizeEvent 0 dupRaw2 = dupClean2 := by decide
  simp only [c7input, List.map_cons, List.map_append, List.map_nil]
  rw [hmid, hdup2]

lemma c7_ids_nodup : ((sanitizeEvent 0 dupRaw1 :: c7mids).map Event.id).Nodup := by
  simp only [List.map_cons, c7mids, List.map_map]
  refine List.nodup_cons.mpr ⟨?_, ?_⟩
  · intro h
    rcases List.mem_map.mp h with ⟨i, -, hi⟩
    have hz : (sanitizeEvent 0 dupRaw1).id = "zzz" := by decide
    rw [hz] at hi
    exact encId_ne_zzz i hi
  · refine List.Nodup.map_on ?_ (List.nodup_range 1200)
    intro x hx y hy hxy
    have hx' : x < 1600 := by have := List.mem_range.mp hx; omega
    have hy' : y < 1600 := by have := List.mem_range.mp hy; omega
    exact encId_inj hx' hy' hxy

lemma c7_dedup :
    dedupById (c7input.map (sanitizeEvent 0)) = dupClean2 :: c7mids := by
  rw [c7_cleaned]
  have he : sanitizeEvent 0 dupRaw1 :: (c7mids ++ [dupClean2])
      = (sanitizeEvent 0 dupRaw1 :: c7mids) ++ [dupClean2] := by simp
  rw [he, dedupById_append_singleton, dedupById_eq_self _ c7_ids_nodup, upsert,
    if_pos (by decide)]

lemma c7_pairwise : (dupClean2 :: c7mids).Pairwise tsLE := by
  refine List.pairwise_cons.mpr ⟨?_, ?_⟩
  · intro z hz
    have hz' : ∃ a, a < 1200 ∧ mkClean a = z := by simpa [c7mids] using hz
    rcases hz' with ⟨i, -, rfl⟩
    show (1 : Int) ≤ (i : Int) + 2
    omega
  · have hp : List.Pairwise tsLE ((List.range 1200).map mkClean) := by
      rw [List.pairwise_map]
      refine (List.pairwise_lt_range 1200).imp ?_
      intro a b hab
      show (a : Int) + 2 ≤ (b : Int) + 2
      omega
    exact hp

lemma c7_events : (sanitizePayload 0 c7payload).events = c7mids := by
  have h1 : (sanitizePayload 0 c7payload).events
      = clampArray (some (sortByTs (dedupById (c7input.map (sanitizeEvent 0)))))
          MAX_EVENTS := by
    simp only [sanitizePayload, c7payload]
  rw [h1, c7_dedup, sortByTs_eq_of_sorted c7_pairwise]
  have hlen : (dupClean2 :: c7mids).length = 1201 := by simp [c7mids]
  simp only [clampArray]
  rw [if_neg (by rw [hlen]; decide), hlen]
  show (dupClean2 :: c7mids).drop 1 = c7mids
  rfl

/-! ## Concrete inputs used in the analysis of individual properties -/

/-- A valid address: `inj` followed by 20 alphanumerics (23 chars). -/
def injAddr : String := "injaaaaaaaaaaaaaaaaaaaa"

/-- A request body one byte over the 220,000-byte ceiling. -/
def bigBody : String := ⟨List.replicate 220001 'x'⟩

/-- Stake section with one label but two data points. -/
def c1p : RawPayload := ⟨some ⟨some ["x"], some [1, 2], none, none⟩, none, none, none⟩

/-- Nonempty stake section for instantiating the amended length invariant. -/
def c1w : RawPayload :=
  ⟨some ⟨some ["a"], some [1, 2], some [3], some ["t"]⟩,
   some ⟨some ["w"], some [4], some [5]⟩,
   some ⟨some [6], some [7], some [8]⟩, none⟩

/-- Stake section with `data = [1,2,3]` and no labels (the C2 round trip). -/
def c2p : RawPayload := ⟨some ⟨none, some [1, 2, 3], none, none⟩, none, none, none⟩

def c8a : RawEvent := ⟨"a", 5, "", "", "", "", "", 0, "", ""⟩
def c8b : RawEvent := ⟨"b", 3, "", "", "", "", "", 0, "", ""⟩
def c8c : RawEvent := ⟨"c", 5, "", "", "", "", "", 0, "", ""⟩

/-- The tie-breaking example `[{ts:5,id:a},{ts:3,id:b},{ts:5,id:c}]`. -/
def c8payload : RawPayload := ⟨none, none, none, some [c8a, c8b, c8c]⟩

/-- A single-event payload for instantiating the dedup characterisation. -/
def c7w : RawPayload := ⟨none, none, none, some [⟨"w", 9, "", "", "", "", "", 0, "", ""⟩]⟩

def c7wClean : Event := ⟨"w", 9, "event", "event", "", 0, "", "done"⟩

def c4s : Session := ⟨"s1", "d1", 1, 10, none, 2, "", [], none⟩
def c4pl : TrackPayload := ⟨"start", "s1", "d1", 5, "", none, "", ""⟩

def c5s : Session := ⟨"s3", "d3", 1, 2, some 3, 0, "", [], some "end"⟩
def c5plA : TrackPayload := ⟨"end", "s3", "d3", 9, "", none, "quit", ""⟩
def c5plB : TrackPayload := ⟨"end", "s4", "d4", 6, "", none, "", ""⟩
def c5pl1 : TrackPayload := ⟨"end", "s2", "d2", 0, "", none, "", ""⟩
def c5pl2 : TrackPayload := ⟨"end", "s2", "d2", 7, "", none, "", ""⟩
def c5rec1 : Session := ⟨"s2", "d2", 0, 0, some 0, 0, "", [], some "end"⟩
def c5rec2 : Session := ⟨"s2", "d2", 0, 7, some 7, 0, "", [], some "end"⟩

def c9pl : TrackPayload := ⟨"beat", "s9", "d9", 4, "", none, "", ""⟩

def c10s : Session := ⟨"s10", "d10", 1, 2, some 3, 0, "", [], some "first"⟩
def c10pl : TrackPayload := ⟨"end", "s10", "d10", 9, "", none, "quit", ""⟩

/-- Total byte length of the incoming data chunks. -/
def totalLen (chunks : List String) : Nat := (chunks.map String.length).sum

lemma bigBody_length : bigBody.length = 220001 := by
  show (List.replicate 220001 'x').length = 220001
  exact List.length_replicate 220001 'x'

lemma totalLen_singleton (b : String) : totalLen [b] = b.length := rfl

lemma join_singleton (b : String) : String.join [b] = "" ++ b := rfl

lemma readRawBodyGo_true_none : ∀ (cs : List String) (raw : String),
    readRawBodyGo raw true cs = none := by
  intro cs
  induction cs with
  | nil => intro raw; rfl
  | cons c cs ih =>
    intro raw
    rw [readRawBodyGo]
    split
    · exact ih ""
    · exact ih _

lemma readRawBodyGo_overflow : ∀ (cs : List String) (raw : String),
    raw.length ≤ MAX_BODY_BYTES → raw.length + totalLen cs > MAX_BODY_BYTES →
    readRawBodyGo raw false cs = none := by
  intro cs
  induction cs with
  | nil =>
    intro raw h1 h2
    exfalso
    simp only [totalLen, List.map_nil, List.sum_nil] at h2
    omega
  | cons c cs ih =>
    intro raw h1 h2
    have hl : (raw ++ c).length = raw.length + c.length := String.length_append raw c
    have ht : totalLen (c :: cs) = c.length + totalLen cs := by
      simp [totalLen]
    rw [readRawBodyGo]
    split
    · exact readRawBodyGo_true_none cs ""
    · rename_i hle
      exact ih (raw ++ c) (by omega) (by omega)

/-! ## Claim C1 -/

/-- C1 counterexample: the claim "after `sanitizePayload` all arrays within a
series have equal length N — in particular stake labels match the primary
array's length even when shorter" is false: for stake input with one label and
two data points the normalized labels array keeps length 1 (`labels` is
truncated but never padded). -/
theorem c1_counterexample :
    (sanitizePayload 0 c1p).stake.labels.length = 1 ∧
    (sanitizePayload 0 c1p).stake.data.length = 2 ∧
    ¬ ((sanitizePayload 0 c1p).stake.labels.length
        = (sanitizePayload 0 c1p).stake.data.length) := by
  decide

/-- C1 (amended): after `sanitizePayload` every series array has length
≤ MAX_POINTS; when the primary array is nonempty, the padded companion arrays
(stake moves/types, wd times, nw usd/inj) have exactly the primary length,
while the labels arrays are truncated to at most that length but never
padded (so shorter labels stay shorter). -/
theorem c1_amended : ∀ (now : Int) (p : RawPayload),
    ((((sanitizePayload now p).stake.labels.length ≤ MAX_POINTS ∧
       (sanitizePayload now p).stake.data.length ≤ MAX_POINTS ∧
       (sanitizePayload now p).stake.moves.length ≤ MAX_POINTS ∧
       (sanitizePayload now p).stake.types.length ≤ MAX_POINTS) ∧
      ((sanitizePayload now p).stake.data ≠ [] →
        (sanitizePayload now p).stake.moves.length
          = (sanitizePayload now p).stake.data.length ∧
        (sanitizePayload now p).stake.types.length
          = (sanitizePayload now p).stake.data.length ∧
        (sanitizePayload now p).stake.labels.length
          ≤ (sanitizePayload now p).stake.data.length)) ∧
     (((sanitizePayload now p).wd.labels.length ≤ MAX_POINTS ∧
       (sanitizePayload now p).wd.values.length ≤ MAX_POINTS ∧
       (sanitizePayload now p).wd.times.length ≤ MAX_POINTS) ∧
      ((sanitizePayload now p).wd.values ≠ [] →
        (sanitizePayload now p).wd.times.length
          = (sanitizePayload now p).wd.values.length ∧
        (sanitizePayload now p).wd.labels.length
          ≤ (sanitizePayload now p).wd.values.length)) ∧
     (((sanitizePayload now p).nw.times.length ≤ MAX_POINTS ∧
       (sanitizePayload now p).nw.usd.length ≤ MAX_POINTS ∧
       (sanitizePayload now p).nw.inj.length ≤ MAX_POINTS) ∧
      ((sanitizePayload now p).nw.times ≠ [] →
        (sanitizePayload now p).nw.usd.length
          = (sanitizePayload now p).nw.times.length ∧
        (sanitizePayload now p).nw.inj.length
          = (sanitizePayload now p).nw.times.length))) := by
  intro now p
  refine ⟨?_, ?_, ?_⟩
  · cases hps : p.stake with
    | none =>
      have h : (sanitizePayload now p).stake = ⟨[], [], [], []⟩ := by
        simp [sanitizePayload, hps]
      rw [h]
      exact ⟨⟨by decide, by decide, by decide, by decide⟩, fun hne => absurd rfl hne⟩
    | some st =>
      have h : (sanitizePayload now p).stake = sanStake st := by
        simp [sanitizePayload, hps]
      rw [h]
      exact sanStake_spec st
  · cases hpw : p.wd with
    | none =>
      have h : (sanitizePayload now p).wd = ⟨[], [], []⟩ := by
        simp [sanitizePayload, hpw]
      rw [h]
      exact ⟨⟨by decide, by decide, by decide⟩, fun hne => absurd rfl hne⟩
    | some w =>
      have h : (sanitizePayload now p).wd = sanWd w := by
        simp [sanitizePayload, hpw]
      rw [h]
      exact sanWd_spec w
  · cases hpn : p.nw with
    | none =>
      have h : (sanitizePayload now p).nw = ⟨[], [], []⟩ := by
        simp [sanitizePayload, hpn]
      rw [h]
      exact ⟨⟨by decide, by decide, by decide⟩, fun hne => absurd rfl hne⟩
    | some x =>
      have h : (sanitizePayload now p).nw = sanNw x := by
        simp [sanitizePayload, hpn]
      rw [h]
      exact sanNw_spec x

/-- C1 witness: the amended invariant instantiated on a concrete payload with
nonempty primaries. -/
theorem c1_amended_witness :
    (sanitizePayload 0 c1w).stake.moves.length
      = (sanitizePayload 0 c1w).stake.data.length ∧
    (sanitizePayload 0 c1w).stake.types.length
      = (sanitizePayload 0 c1w).stake.data.length ∧
    (sanitizePayload 0 c1w).stake.labels.length
      ≤ (sanitizePayload 0 c1w).stake.data.length ∧
    (sanitizePayload 0 c1w).wd.times.length
      = (sanitizePayload 0 c1w).wd.values.length ∧
    (sanitizePayload 0 c1w).nw.usd.length
      = (sanitizePayload 0 c1w).nw.times.length := by
  obtain ⟨hs, hw, hn⟩ := c1_amended 0 c1w
  obtain ⟨hm, ht, hl⟩ := hs.2 (by decide)
  obtain ⟨hwt, -⟩ := hw.2 (by decide)
  obtain ⟨hu, -⟩ := hn.2 (by decide)
  exact ⟨hm, ht, hl, hwt, hu⟩

/-! ## Claim C2 -/

/-- C2 counterexample: posting `stake.data = [1,2,3]` with no labels does NOT
store `stake.labels = ["Stake update","Stake update","Stake update"]` — the
labels array is left empty. -/
theorem c2_counterexample :
    ¬ ((sanitizePayload 0 c2p).stake.labels
        = ["Stake update", "Stake update", "Stake update"]) := by
  decide

/-- C2 (amended): for `stake.data = [1,2,3]` with no labels, the stored
document has `types = ["Stake update","Stake update","Stake update"]` (the
fixed placeholder pads `types`, and `0` pads `moves`), while `labels` is
stored empty — labels are never padded. -/
theorem c2_amended :
    (sanitizePayload 0 c2p).stake.data = [1, 2, 3] ∧
    (sanitizePayload 0 c2p).stake.types
      = ["Stake update", "Stake update", "Stake update"] ∧
    (sanitizePayload 0 c2p).stake.labels = [] ∧
    (sanitizePayload 0 c2p).stake.moves = [0, 0, 0] := by
  decide

/-! ## Claim C3 -/

/-- C3 counterexample: a corrupt stored sessions document makes the tracking
GET return a 500 error response, not `ok:true` with the default empty
collection (the parse failure of `r.json()` escapes `readJsonOr` and is
caught only by the outer 500 handler). -/
theorem c3_counterexample :
    trackHandler (fun _ => none) (fun _ => none) (fun _ => none) 7 "GET"
      (BlobRead.content "corrupt") BlobRead.absent []
      = TrackRes.r500 "Unexpected token" := by
  rfl

/-- C3 (amended): corrupt stored JSON is swallowed only by the snapshot GET,
which returns `ok:true` with `data:null`; the tracking GET surfaces the parse
failure as a 500 error response. -/
theorem c3_amended :
    (∀ (parseDoc : String → Option Payload) (parseBody : String → Option RawPayload)
       (now : Int) (addr txt : String) (preBody : Option String)
       (chunks : List String),
       normalizeAddr addr ≠ "" → parseDoc txt = none →
       pointHandler parseDoc parseBody now "GET" addr (some txt) preBody chunks
         = PointRes.getOk none) ∧
    (∀ (parseS : String → Option (List Session))
       (parseN : String → Option (List (String × String)))
       (parseP : String → Option TrackPayload) (now : Int) (namesBlob : BlobRead)
       (chunks : List String) (txt : String),
       parseS txt = none →
       trackHandler parseS parseN parseP now "GET" (BlobRead.content txt) namesBlob chunks
         = TrackRes.r500 "Unexpected token") := by
  constructor
  · intro pd pb now addr txt pre ch haddr hparse
    rw [pointHandler, if_neg (by decide), if_neg haddr, if_pos rfl]
    show (if txt = "" then PointRes.getOk none else PointRes.getOk (pd txt))
      = PointRes.getOk none
    by_cases ht : txt = ""
    · rw [if_pos ht]
    · rw [if_neg ht, hparse]
  · intro ps pn pp now nb ch txt hparse
    simp [trackHandler, readJsonOr, hparse]

/-- C3 witness: both amended behaviours at concrete corrupt documents. -/
theorem c3_amended_witness :
    pointHandler (fun _ => none) (fun _ => none) 7 "GET" injAddr (some "corrupted") none []
      = PointRes.getOk none ∧
    trackHandler (fun _ => none) (fun _ => none) (fun _ => none) 7 "GET"
      (BlobRead.content "bad") BlobRead.absent [] = TrackRes.r500 "Unexpected token" :=
  ⟨c3_amended.1 (fun _ => none) (fun _ => none) 7 injAddr "corrupted" none []
     (by decide) rfl,
   c3_amended.2 (fun _ => none) (fun _ => none) (fun _ => none) 7 BlobRead.absent [] "bad"
     rfl⟩

/-! ## Claim C4 -/

/-- C4 counterexample: a retried `start` whose ts (5) is earlier than the
record's current `lastTs` (10) DOES decrease `lastTs` — the code assigns
`s.lastTs = ts` unconditionally instead of taking the max. -/
theorem c4_counterexample :
    reduceSession c4pl [c4s] = some [{ c4s with lastTs := 5 }] ∧
    ({ c4s with lastTs := 5 }).lastTs < c4s.lastTs := by
  decide

/-- C4 (amended): on a retried `start` the reducer keeps `startTs` when it is
already set (nonzero; `startTs || ts`), but sets `lastTs := ts`
unconditionally, so a retry with an earlier timestamp rewinds `lastTs`. -/
theorem c4_amended : ∀ (pl : TrackPayload) (sessions : List Session) (s : Session),
    pl.type = "start" → sessions.find? (sessKey pl.sessionId) = some s →
    ∃ out, reduceSession pl sessions = some out ∧
      out.find? (sessKey pl.sessionId) = some (startUpd pl.ts s) ∧
      (startUpd pl.ts s).lastTs = pl.ts ∧
      (startUpd pl.ts s).startTs = jsOrI s.startTs pl.ts := by
  intro pl sessions s htype hfind
  refine ⟨updateFirst (sessKey pl.sessionId) (startUpd pl.ts) sessions, ?_, ?_, rfl, rfl⟩
  · rw [reduceSession, htype, if_pos rfl, hfind]
  · rw [find?_updateFirst (sessKey pl.sessionId) (startUpd pl.ts) (fun a h => h) sessions,
      hfind]
    rfl

/-- C4 witness: the amended start-retry behaviour at a concrete session. -/
theorem c4_amended_witness :
    ∃ out, reduceSession c4pl [c4s] = some out ∧
      out.find? (sessKey c4pl.sessionId) = some (startUpd c4pl.ts c4s) ∧
      (startUpd c4pl.ts c4s).lastTs = c4pl.ts ∧
      (startUpd c4pl.ts c4s).startTs = jsOrI c4s.startTs c4pl.ts :=
  c4_amended c4pl [c4s] c4s (by decide) (by decide)

/-! ## Claim C5 -/

/-- C5 counterexample: two `end` events with different ts (0, then 7) do NOT
retain the earlier-submitted `endTs`: an `endTs` of 0 is falsy for
`s.endTs || ts`, so the second end overwrites it with 7. -/
theorem c5_counterexample :
    reduceSession c5pl1 [] = some [c5rec1] ∧ c5rec1.endTs = some 0 ∧
    reduceSession c5pl2 [c5rec1] = some [c5rec2] ∧ c5rec2.endTs = some 7 ∧
    c5pl1.ts ≠ c5pl2.ts := by
  decide

/-- C5 (amended): first end wins provided the recorded `endTs` is nonzero
(a zero `endTs` is falsy and overwritten); `lastTs` advances to
`max(lastTs, ts)`; an `end` with no record synthesizes one with
`startTs = endTs = lastTs = ts`. -/
theorem c5_amended :
    (∀ (pl : TrackPayload) (sessions : List Session) (s : Session) (e : Int),
      pl.type = "end" → sessions.find? (sessKey pl.sessionId) = some s →
      s.endTs = some e → e ≠ 0 →
      ∃ out, reduceSession pl sessions = some out ∧
        out.find? (sessKey pl.sessionId) = some (endUpd pl.ts pl.reason s) ∧
        (endUpd pl.ts pl.reason s).endTs = some e ∧
        (endUpd pl.ts pl.reason s).lastTs = max (jsOrI s.lastTs 0) pl.ts) ∧
    (∀ (pl : TrackPayload) (sessions : List Session),
      pl.type = "end" → sessions.find? (sessKey pl.sessionId) = none →
      ∃ r, reduceSession pl sessions = some (sessions ++ [r]) ∧
        (sessions ++ [r]).find? (sessKey pl.sessionId) = some r ∧
        r.startTs = pl.ts ∧ r.endTs = some pl.ts ∧ r.lastTs = pl.ts) := by
  constructor
  · intro pl sessions s e htype hfind hend he
    refine ⟨updateFirst (sessKey pl.sessionId) (endUpd pl.ts pl.reason) sessions,
      ?_, ?_, ?_, rfl⟩
    · rw [reduceSession, htype, if_neg (by decide), if_neg (by decide), if_pos rfl, hfind]
    · rw [find?_updateFirst (sessKey pl.sessionId) (endUpd pl.ts pl.reason)
        (fun a h => h) sessions, hfind]
      rfl
    · show jsOrOptI s.endTs pl.ts = some e
      rw [hend]
      show (if e = 0 then some pl.ts else some e) = some e
      rw [if_neg he]
  · intro pl sessions htype hfind
    refine ⟨endUpd pl.ts pl.reason (endSeedRecord pl), ?_, ?_, rfl, ?_, ?_⟩
    · rw [reduceSession, htype, if_neg (by decide), if_neg (by decide), if_pos rfl, hfind]
    · apply find?_append_singleton _ _ _ hfind
      show ((endUpd pl.ts pl.reason (endSeedRecord pl)).sessionId == pl.sessionId) = true
      simp [endUpd, endSeedRecord]
    · show jsOrOptI (some pl.ts) pl.ts = some pl.ts
      exact jsOrOptI_self pl.ts
    · show max (jsOrI pl.ts 0) pl.ts = pl.ts
      exact max_jsOrI_zero pl.ts

/-- C5 witness: the amended end behaviour at concrete sessions (existing
record with nonzero endTs, and synthesis from no record). -/
theorem c5_amended_witness :
    (∃ out, reduceSession c5plA [c5s] = some out ∧
      out.find? (sessKey c5plA.sessionId) = some (endUpd c5plA.ts c5plA.reason c5s) ∧
      (endUpd c5plA.ts c5plA.reason c5s).endTs = some 3 ∧
      (endUpd c5plA.ts c5plA.reason c5s).lastTs = max (jsOrI c5s.lastTs 0) c5plA.ts) ∧
    (∃ r, reduceSession c5plB [] = some ([] ++ [r]) ∧
      ([] ++ [r]).find? (sessKey c5plB.sessionId) = some r ∧
      r.startTs = c5plB.ts ∧ r.endTs = some c5plB.ts ∧ r.lastTs = c5plB.ts) :=
  ⟨c5_amended.1 c5plA [c5s] c5s 3 (by decide) (by decide) (by decide) (by decide),
   c5_amended.2 c5plB [] (by decide) (by decide)⟩

/-! ## Claim C6 -/

/-- C6 counterexample: when the platform hands the handler a pre-parsed
`req.body` (point.js lines 140-147), a POST body of 220,001 bytes is NOT
rejected with 413 — `readRawBody` returns it without any size check and JSON
parsing of the body is attempted (here failing, yielding 400
"Invalid JSON"). -/
theorem c6_counterexample :
    bigBody.length > MAX_BODY_BYTES ∧
    pointHandler (fun _ => none) (fun _ => none) 0 "POST" injAddr none (some bigBody) []
      = PointRes.r400 "Invalid JSON" := by
  have hbig : ¬ (bigBody = "") := by
    intro h
    have h2 := congrArg String.length h
    rw [bigBody_length] at h2
    exact absurd h2 (by decide)
  constructor
  · rw [bigBody_length]; decide
  · rw [pointHandler, if_neg (by decide), if_neg (by decide), if_neg (by decide),
      if_pos rfl]
    simp [readRawBody, hbig]

/-- C6 (amended): on the raw-streaming path (no platform-parsed `req.body`),
both endpoints reject request bodies exceeding 220,000 bytes with a 413
before any JSON parsing (the result is independent of the parse function);
with a pre-parsed `req.body` the snapshot endpoint skips the size check. -/
theorem c6_amended :
    (∀ (parseDoc : String → Option Payload) (parseBody : String → Option RawPayload)
       (now : Int) (addr : String) (storedTxt : Option String) (chunks : List String),
       normalizeAddr addr ≠ "" → totalLen chunks > MAX_BODY_BYTES →
       pointHandler parseDoc parseBody now "POST" addr storedTxt none chunks
         = PointRes.r413) ∧
    (∀ (parseS : String → Option (List Session))
       (parseN : String → Option (List (String × String)))
       (parseP : String → Option TrackPayload) (now : Int)
       (sessBlob namesBlob : BlobRead) (chunks : List String),
       (String.join chunks).length > MAX_BODY_BYTES →
       trackHandler parseS parseN parseP now "POST" sessBlob namesBlob chunks
         = TrackRes.r413) := by
  constructor
  · intro pd pb now addr stored chunks haddr hlen
    rw [pointHandler.eq_def, if_neg (by decide), if_neg haddr, if_neg (by decide),
      if_pos rfl]
    have h : readRawBody none chunks = none := by
      show readRawBodyGo "" false chunks = none
      apply readRawBodyGo_overflow chunks ""
      · decide
      · have h0 : "".length = 0 := rfl
        omega
    rw [h]
  · intro ps pn pp now sb nb chunks hlen
    have hne : ¬ (String.join chunks = "") := by
      intro h
      rw [h] at hlen
      exact absurd hlen (by decide)
    simp [trackHandler, hne, hlen]

/-- C6 witness: a 220,001-byte single-chunk body is rejected with 413 on both
endpoints (streaming path). -/
theorem c6_amended_witness :
    pointHandler (fun _ => none) (fun _ => none) 0 "POST" injAddr none none [bigBody]
      = PointRes.r413 ∧
    trackHandler (fun _ => none) (fun _ => none) (fun _ => none) 0 "POST"
      BlobRead.absent BlobRead.absent [bigBody] = TrackRes.r413 := by
  constructor
  · apply c6_amended.1
    · decide
    · show totalLen [bigBody] > MAX_BODY_BYTES
      rw [totalLen_singleton, bigBody_length]
      decide
  · apply c6_amended.2
    show (String.join [bigBody]).length > MAX_BODY_BYTES
    rw [join_singleton, String.length_append, bigBody_length]
    decide

/-! ## Claim C7 -/

/-- C7 counterexample: submitting the same id twice does not always yield
exactly one stored event with that id.  With 1200 further distinct ids of
later timestamps, the deduplicated event for the twice-submitted id "zzz" is
the oldest of 1201 events and is dropped by the MAX_EVENTS (1200) clamp:
zero events with that id are stored. -/
theorem c7_counterexample :
    dupRaw1 ≠ dupRaw2 ∧
    dupRaw1 ∈ c7input ∧ dupRaw2 ∈ c7input ∧
    (sanitizeEvent 0 dupRaw1).id = (sanitizeEvent 0 dupRaw2).id ∧
    ((sanitizePayload 0 c7payload).events.filter
      (fun e => e.id == (sanitizeEvent 0 dupRaw2).id)).length = 0 := by
  refine ⟨by decide, ?_, ?_, by decide, ?_⟩
  · exact List.mem_cons_self _ _
  · simp [c7input]
  · rw [c7_events]
    have hz : (sanitizeEvent 0 dupRaw2).id = "zzz" := by decide
    rw [hz]
    have h0 : c7mids.filter (fun e => e.id == "zzz") = [] := by
      rw [List.filter_eq_nil_iff]
      intro e he
      have he' : ∃ a, a < 1200 ∧ mkClean a = e := by simpa [c7mids] using he
      rcases he' with ⟨i, -, rfl⟩
      intro hc
      exact encId_ne_zzz i (by simpa using hc)
    rw [h0]
    rfl

/-- C7 (amended): ids in the stored event list are pairwise distinct (at most
one stored event per id), and every stored event equals the LAST occurrence
with its id among the sanitized inputs (upsert-by-id, later values win); an
id can end with zero stored events only through the MAX_EVENTS clamp. -/
theorem c7_amended : ∀ (now : Int) (p : RawPayload),
    (((sanitizePayload now p).events.map Event.id).Nodup) ∧
    (∀ ev ∈ (sanitizePayload now p).events,
      ((p.events.getD []).map (sanitizeEvent now)).reverse.find?
        (fun e => e.id == ev.id) = some ev) := by
  intro now p
  cases hpe : p.events with
  | none =>
    have h1 : (sanitizePayload now p).events = [] := by simp [sanitizePayload, hpe]
    rw [h1]
    constructor
    · simp
    · intro ev hev
      exact absurd hev (List.not_mem_nil ev)
  | some evs =>
    have h1 : (sanitizePayload now p).events
        = clampArray (some (sortByTs (dedupById (evs.map (sanitizeEvent now)))))
            MAX_EVENTS := by
      simp [sanitizePayload, hpe]
    rw [h1]
    simp only [hpe, Option.getD_some]
    constructor
    · have hnd : ((sortByTs (dedupById (evs.map (sanitizeEvent now)))).map Event.id).Nodup := by
        have hperm := (perm_sortByTs (dedupById (evs.map (sanitizeEvent now)))).map Event.id
        exact hperm.nodup_iff.mpr (ids_nodup_dedup _)
      simp only [clampArray]
      split
      · exact hnd
      · exact List.Nodup.sublist (List.Sublist.map Event.id (List.drop_sublist _ _)) hnd
    · intro ev hev
      have hev2 : ev ∈ sortByTs (dedupById (evs.map (sanitizeEvent now))) := by
        revert hev
        simp only [clampArray]
        split
        · exact id
        · intro h; exact (List.drop_sublist _ _).subset h
      have hev3 : ev ∈ dedupById (evs.map (sanitizeEvent now)) :=
        (perm_sortByTs _).mem_iff.mp hev2
      have h4 := dedup_find_last (evs.map (sanitizeEvent now)) hev3
      exact h4

/-- C7 witness: the dedup characterisation instantiated on a one-event
payload. -/
theorem c7_amended_witness :
    (((sanitizePayload 3 c7w).events.map Event.id).Nodup) ∧
    ((c7w.events.getD []).map (sanitizeEvent 3)).reverse.find?
      (fun e => e.id == c7wClean.id) = some c7wClean := by
  obtain ⟨h1, h2⟩ := c7_amended 3 c7w
  exact ⟨h1, h2 c7wClean (by decide)⟩

/-! ## Claim C8 -/

/-- C8: the normalized event list is sorted by ascending ts (for every
input), and the tie-breaking is the stable one: for input events
a(ts 5), b(ts 3), c(ts 5) the output id order is b, a, c — ties preserve
input order, deterministically. -/
theorem c8_event_ordering :
    (∀ (now : Int) (p : RawPayload), (sanitizePayload now p).events.Pairwise tsLE) ∧
    (sanitizePayload 100 c8payload).events.map Event.id = ["b", "a", "c"] := by
  constructor
  · intro now p
    cases hpe : p.events with
    | none =>
      have h1 : (sanitizePayload now p).events = [] := by simp [sanitizePayload, hpe]
      rw [h1]
      exact List.Pairwise.nil
    | some evs =>
      have h1 : (sanitizePayload now p).events
          = clampArray (some (sortByTs (dedupById (evs.map (sanitizeEvent now)))))
              MAX_EVENTS := by
        simp [sanitizePayload, hpe]
      rw [h1]
      simp only [clampArray]
      split
      · exact pairwise_sortByTs _
      · exact List.Pairwise.sublist (List.drop_sublist _ _) (pairwise_sortByTs _)
  · decide

/-! ## Claim C9 -/

/-- C9: a `beat` for a sessionId with no record synthesizes a minimal record
(empty page and deviceInfo, endTs null) and never drops the beat: after the
single beat the record has beats = 1 and startTs = lastTs = ts. -/
theorem c9_beat_synthesizes : ∀ (pl : TrackPayload) (sessions : List Session),
    pl.type = "beat" → sessions.find? (sessKey pl.sessionId) = none →
    ∃ r, reduceSession pl sessions = some (sessions ++ [r]) ∧
      (sessions ++ [r]).find? (sessKey pl.sessionId) = some r ∧
      r.beats = 1 ∧ r.startTs = pl.ts ∧ r.lastTs = pl.ts ∧
      r.page = "" ∧ r.deviceInfo = [] ∧ r.endTs = none := by
  intro pl sessions htype hfind
  refine ⟨beatUpd pl.ts (minimalRecord pl), ?_, ?_, ?_, rfl, ?_, rfl, rfl, rfl⟩
  · rw [reduceSession, htype, if_neg (by decide), if_pos rfl, hfind]
  · apply find?_append_singleton _ _ _ hfind
    show ((beatUpd pl.ts (minimalRecord pl)).sessionId == pl.sessionId) = true
    simp [beatUpd, minimalRecord]
  · show jsOrI 0 0 + 1 = 1
    decide
  · show max (jsOrI pl.ts 0) pl.ts = pl.ts
    exact max_jsOrI_zero pl.ts

/-- C9 witness: a fresh beat on the empty collection. -/
theorem c9_beat_witness :
    ∃ r, reduceSession c9pl [] = some ([] ++ [r]) ∧
      ([] ++ [r]).find? (sessKey c9pl.sessionId) = some r ∧
      r.beats = 1 ∧ r.startTs = c9pl.ts ∧ r.lastTs = c9pl.ts ∧
      r.page = "" ∧ r.deviceInfo = [] ∧ r.endTs = none :=
  c9_beat_synthesizes c9pl [] (by decide) (by decide)

/-! ## Claim C10 -/

/-- C10: every `end` event applied to an existing session record overwrites
`endReason` unconditionally with the event's reason (default "end"), even
when `endTs` was already set by an earlier end — endReason is last-end-wins
while endTs is first-end-wins. -/
theorem c10_end_reason_overwrite : ∀ (pl : TrackPayload) (sessions : List Session)
    (s : Session),
    pl.type = "end" → sessions.find? (sessKey pl.sessionId) = some s →
    ∃ out, reduceSession pl sessions = some out ∧
      out.find? (sessKey pl.sessionId) = some (endUpd pl.ts pl.reason s) ∧
      (endUpd pl.ts pl.reason s).endReason = some (jsOrS pl.reason "end") := by
  intro pl sessions s htype hfind
  refine ⟨updateFirst (sessKey pl.sessionId) (endUpd pl.ts pl.reason) sessions,
    ?_, ?_, rfl⟩
  · rw [reduceSession, htype, if_neg (by decide), if_neg (by decide), if_pos rfl, hfind]
  · rw [find?_updateFirst (sessKey pl.sessionId) (endUpd pl.ts pl.reason)
      (fun a h => h) sessions, hfind]
    rfl

/-- C10 witness: an end with reason "quit" on a session whose endTs and
endReason were already set. -/
theorem c10_end_reason_witness :
    ∃ out, reduceSession c10pl [c10s] = some out ∧
      out.find? (sessKey c10pl.sessionId) = some (endUpd c10pl.ts c10pl.reason c10s) ∧
      (endUpd c10pl.ts c10pl.reason c10s).endReason = some (jsOrS c10pl.reason "end") :=
  c10_end_reason_overwrite c10pl [c10s] c10s (by decide) (by decide)
